import Mathlib

/-!
A shallow embedding of the VPS-bot source (`src/index.js`) and proofs about it.

The source is a Discord bot with a `VpsManager` class holding a `Map` from a
user id to a VPS record, a monotonically increasing id counter starting at
1000, a `createLxc` operation, a `performAction` lifecycle operation whose
`reboot` case schedules a `setTimeout` callback, and two event handlers
(`interactionCreate` for slash commands, `messageCreate` for DM commands).

JS `Map` objects are modelled as association lists: `mapGet` returns the value
at a key, `mapSet` replaces the entry holding the key (or appends a fresh
entry, matching `Map.set` insertion-order semantics).  In-place mutation of a
record object fetched from the map is modelled by replacing that entry's
value.  The `setTimeout` callback of `reboot` is modelled by an explicit list
of pending timers `(userId, fireTime)` together with an `advanceTo` operation
that fires every due timer in order; this is sound because records are never
removed from or replaced in the map, so the object captured by the callback is
always the record currently stored for that user.  Time is measured in
seconds: the source's `setTimeout(..., 5000)` is a delay of 5 time units.
-/

set_option autoImplicit false

namespace VpsBot

/-- A Discord user object as used by the source: `user.id`, `user.username`
(used in the tmate session string) and `user.tag` (used in messages). -/
structure User where
  id : String
  username : String
  tag : String
  deriving DecidableEq

/-- The specs object built in `deploy.execute`: `{ ram, disk, cpu }`,
integers taken from the slash-command options (no validation is applied). -/
structure Specs where
  ram : Int
  disk : Int
  cpu : Int
  deriving DecidableEq

/-- A VPS record as built by `createLxc`.  `status` is one of the strings
`"offline"`, `"online"`, `"rebooting"`. -/
structure Vps where
  id : String
  owner : User
  specs : Specs
  status : String
  tmateSession : String
  deriving DecidableEq

/-- Result of `createLxc`: either `{ success: false, message }` or
`{ success: true, vps }`. -/
inductive CreateRes where
  | failure (message : String)
  | success (vps : Vps)
  deriving DecidableEq

/-- Result of `performAction`: either `{ success: false, message }` or
`{ success: true, vps }`. -/
inductive ActionRes where
  | failure (message : String)
  | success (vps : Vps)
  deriving DecidableEq

/-- Lookup in a JS `Map` modelled as an association list (first match). -/
def mapGet (m : List (String × Vps)) (k : String) : Option Vps :=
  match m with
  | [] => none
  | (k₁, v) :: rest => if k₁ = k then some v else mapGet rest k

/-- Models `Map.set`: replace the entry holding the key, or append a fresh entry. -/
def mapSet (m : List (String × Vps)) (k : String) (v : Vps) : List (String × Vps) :=
  match m with
  | [] => [(k, v)]
  | (k₁, v₁) :: rest => if k₁ = k then (k, v) :: rest else (k₁, v₁) :: mapSet rest k v

/-- The `VpsManager` state: `this.vpsDatabase` and `this.vpsIdCounter`. -/
structure VpsManager where
  vpsDatabase : List (String × Vps)
  vpsIdCounter : Nat
  deriving DecidableEq

/-- Models `new VpsManager()`: empty database, counter at 1000. -/
def newVpsManager : VpsManager := { vpsDatabase := [], vpsIdCounter := 1000 }

/-- Models `getUserVps(userId)`: `this.vpsDatabase.get(userId)`. -/
def getUserVps (m : VpsManager) (userId : String) : Option Vps :=
  mapGet m.vpsDatabase userId

/-- Models `createLxc(user, specs)` from the source:
checks `getUserVps(user.id)`, otherwise allocates `LXC-${this.vpsIdCounter++}`,
builds the record with `status: "offline"` and the tmate session string
`ssh ${user.username}-${vpsId}@tmate.kexson.host`, and stores it under
`user.id`. -/
def createLxc (m : VpsManager) (user : User) (specs : Specs) :
    CreateRes × VpsManager :=
  match getUserVps m user.id with
  | some _ => (.failure "User already has a VPS.", m)
  | none =>
    let vpsId := "LXC-" ++ Nat.repr m.vpsIdCounter
    let newVps : Vps :=
      { id := vpsId
        owner := user
        specs := specs
        status := "offline"
        tmateSession := "ssh " ++ user.username ++ "-" ++ vpsId ++ "@tmate.kexson.host" }
    (.success newVps,
      { vpsDatabase := mapSet m.vpsDatabase user.id newVps
        vpsIdCounter := m.vpsIdCounter + 1 })

/-- The delay of the `setTimeout` in the `reboot` case, in time units
(seconds): the source uses 5000 milliseconds. -/
def rebootDelay : Nat := 5

/-- The whole system state: the manager, the current time, and the pending
`setTimeout` callbacks scheduled by `reboot`, as `(userId, fireTime)`. -/
structure Sys where
  mgr : VpsManager
  now : Nat
  timers : List (String × Nat)
  deriving DecidableEq

/-- Models `performAction(userId, action)` from the source: looks up the record,
fails with "VPS not found." when absent, then switches on the action string,
mutating `vps.status` in place; `reboot` additionally schedules a
`setTimeout` that will set the status to `"online"` after `rebootDelay`.
An action string matching no case falls through the switch and the call still
returns `{ success: true, vps }`. -/
def performAction (s : Sys) (userId action : String) : ActionRes × Sys :=
  match mapGet s.mgr.vpsDatabase userId with
  | none => (.failure "VPS not found.", s)
  | some vps =>
    if action = "start" then
      let vps₁ := { vps with status := "online" }
      (.success vps₁,
        { s with mgr := { s.mgr with vpsDatabase := mapSet s.mgr.vpsDatabase userId vps₁ } })
    else if action = "shutdown" then
      let vps₁ := { vps with status := "offline" }
      (.success vps₁,
        { s with mgr := { s.mgr with vpsDatabase := mapSet s.mgr.vpsDatabase userId vps₁ } })
    else if action = "reboot" then
      let vps₁ := { vps with status := "rebooting" }
      (.success vps₁,
        { s with
            mgr := { s.mgr with vpsDatabase := mapSet s.mgr.vpsDatabase userId vps₁ }
            timers := s.timers ++ [(userId, s.now + rebootDelay)] })
    else
      (.success vps, s)

/-- The body of the `setTimeout` callback scheduled by `reboot`:
`vps.status = "online"` on the record captured for `userId`.  Records are
never removed from or replaced in the map, so the captured object is the
record currently stored for that user; when no record exists the callback
could never have been scheduled, and the model leaves the state unchanged. -/
def fireTimer (m : VpsManager) (userId : String) : VpsManager :=
  match mapGet m.vpsDatabase userId with
  | none => m
  | some vps =>
    { m with vpsDatabase := mapSet m.vpsDatabase userId { vps with status := "online" } }

/-- Fire, in order, every pending timer whose fire time is at most `t`,
keeping the rest. -/
def fireDue (m : VpsManager) (timers : List (String × Nat)) (t : Nat) :
    VpsManager × List (String × Nat) :=
  match timers with
  | [] => (m, [])
  | (uid, ft) :: rest =>
    if ft ≤ t then fireDue (fireTimer m uid) rest t
    else
      let p := fireDue m rest t
      (p.1, (uid, ft) :: p.2)

/-- Advance the clock to time `t`, firing every due `setTimeout` callback. -/
def advanceTo (s : Sys) (t : Nat) : Sys :=
  let p := fireDue s.mgr s.timers t
  { mgr := p.1, now := t, timers := p.2 }

/-- An event in a system run: a `createLxc` call, a `performAction` call, or
the passage of time (which fires due timers). -/
inductive Op where
  | create (user : User) (specs : Specs)
  | action (userId action : String)
  | advance (t : Nat)

/-- Apply one event to the system state. -/
def runOp (s : Sys) : Op → Sys
  | .create user specs =>
    { s with mgr := (createLxc s.mgr user specs).2 }
  | .action userId action => (performAction s userId action).2
  | .advance t => advanceTo s t

/-- Run a list of events from a state. -/
def run (s : Sys) (ops : List Op) : Sys :=
  ops.foldl runOp s

/-- The initial system: a fresh `VpsManager`, clock at 0, no pending timers. -/
def initSys : Sys := { mgr := newVpsManager, now := 0, timers := [] }

/-! ### The command router (event handlers) -/

/-- The distinct replies the bot can send, with their dynamic data.  Each
constructor corresponds to one `reply`/`send`/`editReply` call site in the
source. -/
inductive Reply where
  /-- The reply `"You are not an admin."` (ephemeral reply on the admin check). -/
  | notAdmin
  /-- The reply `` `Error: ${result.message}` `` (deploy failure edit). -/
  | deployError (message : String)
  /-- The DM embed sent to the target user on a successful deploy. -/
  | deployDm (vpsId : String) (ram disk cpu : Int) (tmate : String)
  /-- The reply `` `Successfully deployed LXC VPS ...` `` (admin confirmation). -/
  | deploySuccess (vpsId userTag : String)
  /-- The reply `` `VPS ... deployed ..., but I could not send them a DM...` ``. -/
  | deployDmFailed (vpsId userTag : String)
  /-- The reply `"You do not have a VPS deployed. ..."` (manage without a record). -/
  | manageNoVps
  /-- The reply `"Please check your Direct Messages ..."` (manage confirmation). -/
  | manageCheckDms
  /-- The management-instructions DM sent by `manage`. -/
  | manageDm (vpsId : String)
  /-- The `!help` command list. -/
  | dmHelp
  /-- The reply `` `Your VPS (...) status is: **${vps.status.toUpperCase()}**` ``. -/
  | dmStatus (vpsId statusUpper : String)
  /-- The reply `` `Your VPS (...) is now rebooting.` ``. -/
  | dmRebooting (vpsId : String)
  /-- The reply `` `Your VPS (...) has been shut down.` ``. -/
  | dmShutdown (vpsId : String)
  /-- The reply `` `Your VPS (...) has been started.` ``. -/
  | dmStarted (vpsId : String)
  /-- The reply `` `SSH Access for ...` ``. -/
  | dmSsh (vpsId tmate : String)
  /-- The reply `` `Unknown command. Type \x60!help\x60 to see available commands.` ``. -/
  | dmUnknown
  deriving DecidableEq

/-- A slash-command interaction as consumed by the `interactionCreate`
handler.  `user` is the invoking actor; `targetUser`, `ram`, `disk`, `cpu`
are the `deploy` options; `dmDeliverable` models whether `user.send` on the
relevant recipient succeeds (the `try`/`catch` branches). -/
structure Interaction where
  isChatInputCommand : Bool
  commandName : String
  user : User
  targetUser : User
  ram : Int
  disk : Int
  cpu : Int
  dmDeliverable : Bool
  deriving DecidableEq

/-- Models `deploy.execute`: build the specs from the options, call `createLxc`; on
failure edit the reply with the error; on success try to DM the target user
and confirm to the admin (or report the DM failure). -/
def deployExecute (m : VpsManager) (i : Interaction) : VpsManager × List Reply :=
  let specs : Specs := { ram := i.ram, disk := i.disk, cpu := i.cpu }
  match createLxc m i.targetUser specs with
  | (.failure message, m₁) => (m₁, [.deployError message])
  | (.success vps, m₁) =>
    if i.dmDeliverable then
      (m₁, [.deployDm vps.id vps.specs.ram vps.specs.disk vps.specs.cpu vps.tmateSession,
            .deploySuccess vps.id i.targetUser.tag])
    else
      (m₁, [.deployDmFailed vps.id i.targetUser.tag])

/-- Models `manage.execute`: look up the invoker's record; without one reply that no
VPS is deployed; otherwise confirm and try to DM the instructions. -/
def manageExecute (m : VpsManager) (i : Interaction) : VpsManager × List Reply :=
  match getUserVps m i.user.id with
  | none => (m, [.manageNoVps])
  | some vps =>
    if i.dmDeliverable then (m, [.manageCheckDms, .manageDm vps.id])
    else (m, [.manageCheckDms])

/-- The `interactionCreate` handler: ignore non-chat-input interactions and
unknown command names; for the `deploy` command (category `admin`) reject any
invoker other than `ADMIN_ID` with the not-admin reply before executing. -/
def handleInteraction (m : VpsManager) (adminId : String) (i : Interaction) :
    VpsManager × List Reply :=
  if i.isChatInputCommand = false then (m, [])
  else if i.commandName = "deploy" then
    if i.user.id ≠ adminId then (m, [.notAdmin])
    else deployExecute m i
  else if i.commandName = "manage" then manageExecute m i
  else (m, [])

/-- JS `String.prototype.startsWith`. -/
def strStartsWith (s p : String) : Bool :=
  p.data.isPrefixOf s.data

/-- JS `String.prototype.toLowerCase` (ASCII behaviour). -/
def toLowerStr (s : String) : String :=
  ⟨s.data.map Char.toLower⟩

/-- JS `String.prototype.toUpperCase` (ASCII behaviour). -/
def toUpperStr (s : String) : String :=
  ⟨s.data.map Char.toUpper⟩

/-- JS `String.prototype.trim`: strip whitespace from both ends. -/
def trimStr (s : String) : String :=
  ⟨((s.data.dropWhile Char.isWhitespace).reverse.dropWhile Char.isWhitespace).reverse⟩

/-- Models `message.content.trim().split(/ +/)` followed by `args.shift()`: the
first run of non-space characters of the trimmed content. -/
def firstToken (s : String) : String :=
  ⟨(trimStr s).data.takeWhile (fun c => ¬ c = ' ')⟩

/-- A direct message as consumed by the `messageCreate` handler. -/
structure Message where
  authorId : String
  authorBot : Bool
  channelIsDM : Bool
  content : String
  deriving DecidableEq

/-- The `messageCreate` handler: ignore bots, non-DM channels and authors
without a record; take the first token of the trimmed content, lowercased;
ignore it unless it starts with `!`; then dispatch on the command string,
calling `performAction` for `!reboot`, `!shutdown` and `!start`, and falling
through to the unknown-command reply otherwise. -/
def handleMessage (s : Sys) (msg : Message) : Sys × List Reply :=
  if msg.authorBot = true ∨ msg.channelIsDM = false then (s, [])
  else
    match mapGet s.mgr.vpsDatabase msg.authorId with
    | none => (s, [])
    | some vps =>
      let commandName := toLowerStr (firstToken msg.content)
      if strStartsWith commandName "!" = false then (s, [])
      else if commandName = "!help" then (s, [.dmHelp])
      else if commandName = "!status" then (s, [.dmStatus vps.id (toUpperStr vps.status)])
      else if commandName = "!reboot" then
        ((performAction s msg.authorId "reboot").2, [.dmRebooting vps.id])
      else if commandName = "!shutdown" then
        ((performAction s msg.authorId "shutdown").2, [.dmShutdown vps.id])
      else if commandName = "!start" then
        ((performAction s msg.authorId "start").2, [.dmStarted vps.id])
      else if commandName = "!ssh" then (s, [.dmSsh vps.id vps.tmateSession])
      else (s, [.dmUnknown])

/-- The shape of the tmate session string built by `createLxc`, as a function
of the owner's username and the record id. -/
def mkTmate (username id : String) : String :=
  "ssh " ++ username ++ "-" ++ id ++ "@tmate.kexson.host"

/-! ### Predicates used by the proofs -/

/-- Numeric value of a decimal digit character. -/
def digitVal (c : Char) : Nat := c.toNat - 48

/-- Value of a most-significant-first list of decimal digit characters. -/
def decVal (l : List Char) : Nat := l.foldl (fun a c => 10 * a + digitVal c) 0

/-- Two records agreeing on everything except possibly the `status` field. -/
def ShapeVps (v w : Vps) : Prop :=
  w.id = v.id ∧ w.owner = v.owner ∧ w.specs = v.specs ∧ w.tmateSession = v.tmateSession

/-- Pointwise relation between a database entry and its status-only update. -/
def EntryShape (e e₁ : String × Vps) : Prop :=
  e₁.1 = e.1 ∧ ShapeVps e.2 e₁.2

/-- A well-formed database entry: the record id is the fixed prefix `LXC-`
followed by a counter value below the current counter, and the tmate session
has the shape built at creation. -/
def RecOk (counter : Nat) (e : String × Vps) : Prop :=
  ∃ n, 1000 ≤ n ∧ n < counter ∧ e.2.id = "LXC-" ++ Nat.repr n ∧
    e.2.tmateSession = mkTmate e.2.owner.username e.2.id

/-- Invariant of reachable system states. -/
def Inv (s : Sys) : Prop :=
  (∀ e ∈ s.mgr.vpsDatabase, RecOk s.mgr.vpsIdCounter e) ∧
  s.mgr.vpsDatabase.Pairwise (fun e₁ e₂ => e₁.2.id ≠ e₂.2.id) ∧
  1000 ≤ s.mgr.vpsIdCounter

/-! ### Concrete sample data for closed instantiations -/

/-- A sample user. -/
def uAlice : User := { id := "1", username := "alice", tag := "alice#1" }

/-- A second sample user object carrying the same user id as `uAlice` but a
different username. -/
def uBob : User := { id := "1", username := "bob", tag := "bob#1" }

/-- A sample user with a distinct user id. -/
def uCarol : User := { id := "2", username := "carol", tag := "carol#2" }

/-- Sample specs matching the spec scenario. -/
def spSmall : Specs := { ram := 512, disk := 10, cpu := 1 }

/-- Specs with a nonpositive RAM value, accepted unchecked by the code. -/
def spBad : Specs := { ram := 0, disk := 10, cpu := 1 }

/-- The record `createLxc` builds for `uAlice` on a fresh manager. -/
def vpsAlice : Vps :=
  { id := "LXC-1000", owner := uAlice, specs := spSmall, status := "offline",
    tmateSession := "ssh alice-LXC-1000@tmate.kexson.host" }

/-- The record `createLxc` builds for `uBob` on a fresh manager. -/
def vpsBob : Vps :=
  { id := "LXC-1000", owner := uBob, specs := spSmall, status := "offline",
    tmateSession := "ssh bob-LXC-1000@tmate.kexson.host" }

/-- The manager after provisioning `uAlice` on a fresh manager. -/
def mgrAlice : VpsManager := (createLxc newVpsManager uAlice spSmall).2

/-- The system state holding exactly the record of `uAlice`. -/
def sysAlice : Sys := { mgr := mgrAlice, now := 0, timers := [] }

/-- A DM from `uAlice` whose text is not a recognized command and does not
start with the command sigil. -/
def msgHello : Message :=
  { authorId := "1", authorBot := false, channelIsDM := true, content := "hello" }

/-- A DM from `uAlice` whose first token starts with the command sigil but is
not a recognized command. -/
def msgWeird : Message :=
  { authorId := "1", authorBot := false, channelIsDM := true, content := "!frobnicate now" }

/-- A `deploy` invocation by the non-admin `uBob` targeting `uCarol`. -/
def deployByBob : Interaction :=
  { isChatInputCommand := true, commandName := "deploy", user := uBob,
    targetUser := uCarol, ram := 512, disk := 10, cpu := 1, dmDeliverable := true }

end VpsBot

namespace VpsBot

/-! ### Association-list lemmas -/

theorem mapGet_mapSet_self (db : List (String × Vps)) (k : String) (v : Vps) :
    mapGet (mapSet db k v) k = some v := by
  induction db with
  | nil => simp [mapGet, mapSet]
  | cons e rest ih =>
    obtain ⟨k₁, v₁⟩ := e
    by_cases h : k₁ = k
    · simp [mapGet, mapSet, h]
    · simp [mapGet, mapSet, h, ih]

theorem mapGet_mapSet_ne (db : List (String × Vps)) (k k₀ : String) (v : Vps)
    (h : k₀ ≠ k) : mapGet (mapSet db k v) k₀ = mapGet db k₀ := by
  induction db with
  | nil => simp [mapGet, mapSet, Ne.symm h]
  | cons e rest ih =>
    obtain ⟨k₁, v₁⟩ := e
    by_cases h₁ : k₁ = k
    · subst h₁
      simp [mapGet, mapSet, Ne.symm h]
    · by_cases h₂ : k₁ = k₀
      · subst h₂
        simp [mapGet, mapSet, h₁]
      · simp [mapGet, mapSet, h₁, h₂, ih]

theorem mapSet_absent (db : List (String × Vps)) (k : String) (v : Vps)
    (h : mapGet db k = none) : mapSet db k v = db ++ [(k, v)] := by
  induction db with
  | nil => simp [mapSet]
  | cons e rest ih =>
    obtain ⟨k₁, v₁⟩ := e
    by_cases h₁ : k₁ = k
    · simp [mapGet, h₁] at h
    · simp [mapGet, h₁] at h
      simp [mapSet, h₁, ih h]

theorem mapSet_present_self (db : List (String × Vps)) (k : String) (v : Vps)
    (h : mapGet db k = some v) : mapSet db k v = db := by
  induction db with
  | nil => simp [mapGet] at h
  | cons e rest ih =>
    obtain ⟨k₁, v₁⟩ := e
    by_cases h₁ : k₁ = k
    · simp [mapGet, h₁] at h
      simp [mapSet, h₁, h]
    · simp [mapGet, h₁] at h
      simp [mapSet, h₁, ih h]

theorem mapGet_none_keys (db : List (String × Vps)) (k : String)
    (h : mapGet db k = none) : ∀ e ∈ db, e.1 ≠ k := by
  induction db with
  | nil => simp
  | cons e rest ih =>
    obtain ⟨k₁, v₁⟩ := e
    by_cases h₁ : k₁ = k
    · simp [mapGet, h₁] at h
    · simp [mapGet, h₁] at h
      intro e he
      rcases List.mem_cons.mp he with rfl | he
      · exact h₁
      · exact ih h e he

/-! ### Decimal rendering of naturals (`Nat.repr`) -/

theorem digitVal_digitChar : ∀ m, m < 10 → digitVal (Nat.digitChar m) = m := by decide

theorem digitChar_isDigit : ∀ m, m < 10 → (Nat.digitChar m).isDigit = true := by decide

theorem toDigitsCore_append (fuel : Nat) :
    ∀ (n : Nat) (ds : List Char),
      Nat.toDigitsCore 10 fuel n ds = Nat.toDigitsCore 10 fuel n [] ++ ds := by
  induction fuel with
  | zero => intro n ds; simp [Nat.toDigitsCore]
  | succ f ih =>
    intro n ds
    simp only [Nat.toDigitsCore]
    by_cases h : n / 10 = 0
    · simp [h]
    · simp only [h, if_false]
      rw [ih (n / 10) (Nat.digitChar (n % 10) :: ds),
        ih (n / 10) [Nat.digitChar (n % 10)], List.append_assoc]
      simp

theorem decVal_append_singleton (l : List Char) (c : Char) :
    decVal (l ++ [c]) = 10 * decVal l + digitVal c := by
  simp [decVal, List.foldl_append]

theorem decVal_toDigitsCore :
    ∀ fuel n, n < fuel → decVal (Nat.toDigitsCore 10 fuel n []) = n := by
  intro fuel
  induction fuel with
  | zero => intro n h; exact absurd h (Nat.not_lt_zero n)
  | succ f ih =>
    intro n hn
    simp only [Nat.toDigitsCore]
    by_cases h : n / 10 = 0
    · have h10 : n < 10 := (Nat.div_eq_zero_iff (by decide)).mp h
      simp only [h, if_true]
      simp [decVal, digitVal_digitChar n h10, Nat.mod_eq_of_lt h10]
    · have hpos : 0 < n := by
        rcases Nat.eq_zero_or_pos n with rfl | hp
        · simp at h
        · exact hp
      have hlt : n / 10 < n := Nat.div_lt_self hpos (by decide)
      simp only [h, if_false]
      rw [toDigitsCore_append, decVal_append_singleton, ih (n / 10) (by omega),
        digitVal_digitChar (n % 10) (Nat.mod_lt n (by decide))]
      exact Nat.div_add_mod n 10

theorem data_asString (l : List Char) : (List.asString l).data = l := rfl

theorem repr_inj {m n : Nat} (h : Nat.repr m = Nat.repr n) : m = n := by
  have hd : Nat.toDigitsCore 10 (m + 1) m [] = Nat.toDigitsCore 10 (n + 1) n [] := by
    have h₁ := congrArg String.data h
    simpa [Nat.repr, Nat.toDigits, data_asString] using h₁
  calc m = decVal (Nat.toDigitsCore 10 (m + 1) m []) :=
        (decVal_toDigitsCore (m + 1) m (Nat.lt_succ_self m)).symm
    _ = decVal (Nat.toDigitsCore 10 (n + 1) n []) := by rw [hd]
    _ = n := decVal_toDigitsCore (n + 1) n (Nat.lt_succ_self n)

theorem toDigitsCore_isDigit :
    ∀ fuel n (ds : List Char), (∀ c ∈ ds, c.isDigit = true) →
      ∀ c ∈ Nat.toDigitsCore 10 fuel n ds, c.isDigit = true := by
  intro fuel
  induction fuel with
  | zero =>
    intro n ds h c hc
    simp only [Nat.toDigitsCore] at hc
    exact h c hc
  | succ f ih =>
    intro n ds h c hc
    have hd : (Nat.digitChar (n % 10)).isDigit = true :=
      digitChar_isDigit (n % 10) (Nat.mod_lt n (by decide))
    have hcons : ∀ c ∈ Nat.digitChar (n % 10) :: ds, c.isDigit = true := by
      intro c hc
      rcases List.mem_cons.mp hc with rfl | hc
      · exact hd
      · exact h c hc
    simp only [Nat.toDigitsCore] at hc
    by_cases h0 : n / 10 = 0
    · simp only [h0, if_true] at hc
      exact hcons c hc
    · simp only [h0, if_false] at hc
      exact ih (n / 10) _ hcons c hc

theorem repr_isDigit (n : Nat) : ∀ c ∈ (Nat.repr n).data, c.isDigit = true := by
  intro c hc
  simp only [Nat.repr, Nat.toDigits, data_asString] at hc
  exact toDigitsCore_isDigit (n + 1) n [] (by simp) c hc

theorem dash_not_mem_repr (n : Nat) : ('-' : Char) ∉ (Nat.repr n).data := by
  intro hc
  have := repr_isDigit n '-' hc
  simp [Char.isDigit] at this

end VpsBot

namespace VpsBot

/-! ### Injectivity of the id and credential encodings -/

theorem data_append (a b : String) : (a ++ b).data = a.data ++ b.data := by
  cases a; cases b; rfl

theorem string_data_inj {s₁ s₂ : String} (h : s₁.data = s₂.data) : s₁ = s₂ := by
  cases s₁; cases s₂
  exact congrArg String.mk (by simpa using h)

/-- Splitting a character list at a separator character that occurs in neither
tail determines the tail. -/
theorem sep_split {c : Char} :
    ∀ (a₁ a₂ b₁ b₂ : List Char), c ∉ b₁ → c ∉ b₂ →
      a₁ ++ c :: b₁ = a₂ ++ c :: b₂ → b₁ = b₂ := by
  intro a₁
  induction a₁ with
  | nil =>
    intro a₂ b₁ b₂ h₁ h₂ h
    cases a₂ with
    | nil => simpa using h
    | cons x a₂ =>
      simp only [List.nil_append, List.cons_append, List.cons.injEq] at h
      obtain ⟨rfl, h⟩ := h
      exact absurd (h ▸ List.mem_append_right a₂ (List.mem_cons_self _ _)) h₁
  | cons x a₁ ih =>
    intro a₂ b₁ b₂ h₁ h₂ h
    cases a₂ with
    | nil =>
      simp only [List.nil_append, List.cons_append, List.cons.injEq] at h
      obtain ⟨rfl, h⟩ := h
      exact absurd (h.symm ▸ List.mem_append_right a₁ (List.mem_cons_self _ _)) h₂
    | cons y a₂ =>
      simp only [List.cons_append, List.cons.injEq] at h
      exact ih a₂ b₁ b₂ h₁ h₂ h.2

theorem lxcId_inj {a b : Nat}
    (h : "LXC-" ++ Nat.repr a = "LXC-" ++ Nat.repr b) : a = b := by
  have h₁ := congrArg String.data h
  simp only [data_append] at h₁
  exact repr_inj (string_data_inj (List.append_cancel_left h₁))

theorem mkTmate_data (u x : String) :
    (mkTmate u ("LXC-" ++ x)).data =
      ("ssh ".data ++ u.data ++ ['-', 'L', 'X', 'C']) ++
        '-' :: (x.data ++ "@tmate.kexson.host".data) := by
  simp only [mkTmate, data_append, List.append_assoc]
  rfl

/-- The tmate session string determines the numeric part of the record id:
the digits after the final separator parse back to the counter value. -/
theorem mkTmate_inj {u₁ u₂ : String} {n₁ n₂ : Nat}
    (h : mkTmate u₁ ("LXC-" ++ Nat.repr n₁) = mkTmate u₂ ("LXC-" ++ Nat.repr n₂)) :
    n₁ = n₂ := by
  have h₁ := congrArg String.data h
  rw [mkTmate_data, mkTmate_data] at h₁
  have hmem : ∀ n : Nat, ('-' : Char) ∉ (Nat.repr n).data ++ "@tmate.kexson.host".data := by
    intro n hc
    rcases List.mem_append.mp hc with hc | hc
    · exact dash_not_mem_repr n hc
    · simp at hc
  have h₂ := sep_split _ _ _ _ (hmem n₁) (hmem n₂) h₁
  exact repr_inj (string_data_inj (List.append_cancel_right h₂))

end VpsBot

namespace VpsBot

/-! ### Frame lemmas: all operations mutate only the `status` field -/

theorem shapeVps_refl (v : Vps) : ShapeVps v v := ⟨rfl, rfl, rfl, rfl⟩

theorem shapeVps_trans {u v w : Vps} (h₁ : ShapeVps u v) (h₂ : ShapeVps v w) :
    ShapeVps u w :=
  ⟨h₂.1.trans h₁.1, h₂.2.1.trans h₁.2.1, h₂.2.2.1.trans h₁.2.2.1, h₂.2.2.2.trans h₁.2.2.2⟩

theorem shapeVps_status (v : Vps) (st : String) : ShapeVps v { v with status := st } :=
  ⟨rfl, rfl, rfl, rfl⟩

theorem fireTimer_counter (m : VpsManager) (uid : String) :
    (fireTimer m uid).vpsIdCounter = m.vpsIdCounter := by
  unfold fireTimer
  cases mapGet m.vpsDatabase uid <;> rfl

theorem fireTimer_frame (m : VpsManager) (uid uid₀ : String) (v : Vps)
    (h : mapGet m.vpsDatabase uid₀ = some v) :
    ∃ w, mapGet (fireTimer m uid).vpsDatabase uid₀ = some w ∧ ShapeVps v w ∧
      (w.status = v.status ∨ w.status = "online") := by
  by_cases he : uid₀ = uid
  · subst he
    refine ⟨{ v with status := "online" }, ?_, shapeVps_status v _, Or.inr rfl⟩
    simp only [fireTimer, h]
    exact mapGet_mapSet_self _ _ _
  · cases hg : mapGet m.vpsDatabase uid with
    | none => exact ⟨v, by simp [fireTimer, hg, h], shapeVps_refl v, Or.inl rfl⟩
    | some v₁ =>
      refine ⟨v, ?_, shapeVps_refl v, Or.inl rfl⟩
      simp only [fireTimer, hg]
      rw [mapGet_mapSet_ne _ _ _ _ he]
      exact h

theorem fireDue_counter (tl : List (String × Nat)) (m : VpsManager) (t : Nat) :
    (fireDue m tl t).1.vpsIdCounter = m.vpsIdCounter := by
  induction tl generalizing m with
  | nil => rfl
  | cons e rest ih =>
    obtain ⟨u₁, f₁⟩ := e
    by_cases hf : f₁ ≤ t
    · simp only [fireDue, if_pos hf]
      rw [ih (fireTimer m u₁), fireTimer_counter]
    · simp only [fireDue, if_neg hf]
      exact ih m

theorem fireDue_frame (tl : List (String × Nat)) (m : VpsManager) (t : Nat)
    (uid : String) (v : Vps) (h : mapGet m.vpsDatabase uid = some v) :
    ∃ w, mapGet (fireDue m tl t).1.vpsDatabase uid = some w ∧ ShapeVps v w ∧
      (w.status = v.status ∨ w.status = "online") := by
  induction tl generalizing m v with
  | nil => exact ⟨v, by simpa [fireDue] using h, shapeVps_refl v, Or.inl rfl⟩
  | cons e rest ih =>
    obtain ⟨u₁, f₁⟩ := e
    by_cases hf : f₁ ≤ t
    · simp only [fireDue, if_pos hf]
      obtain ⟨w₁, hw₁, hs₁, hst₁⟩ := fireTimer_frame m u₁ uid v h
      obtain ⟨w₂, hw₂, hs₂, hst₂⟩ := ih (fireTimer m u₁) w₁ hw₁
      refine ⟨w₂, hw₂, shapeVps_trans hs₁ hs₂, ?_⟩
      rcases hst₂ with h₂ | h₂
      · rcases hst₁ with h₁ | h₁
        · exact Or.inl (h₂.trans h₁)
        · exact Or.inr (h₂.trans h₁)
      · exact Or.inr h₂
    · simp only [fireDue, if_neg hf]
      exact ih m v h

theorem fireDue_fires (tl : List (String × Nat)) (t : Nat) (uid : String)
    (ft : Nat) (hft : ft ≤ t) :
    ∀ (m : VpsManager) (v : Vps), (uid, ft) ∈ tl →
      mapGet m.vpsDatabase uid = some v →
      ∃ w, mapGet (fireDue m tl t).1.vpsDatabase uid = some w ∧ ShapeVps v w ∧
        w.status = "online" := by
  induction tl with
  | nil =>
    intro m v hmem h
    simp at hmem
  | cons e rest ih =>
    intro m v hmem h
    obtain ⟨u₁, f₁⟩ := e
    rcases List.mem_cons.mp hmem with heq | hmem₁
    · obtain ⟨h₁, h₂⟩ : uid = u₁ ∧ ft = f₁ := by
        injection heq with a b; exact ⟨a, b⟩
      subst h₁
      subst h₂
      simp only [fireDue, if_pos hft]
      have hw₁on : mapGet (fireTimer m uid).vpsDatabase uid =
          some { v with status := "online" } := by
        simp only [fireTimer, h]
        exact mapGet_mapSet_self _ _ _
      obtain ⟨w₂, hw₂, hs₂, hst₂⟩ :=
        fireDue_frame rest (fireTimer m uid) t uid { v with status := "online" } hw₁on
      refine ⟨w₂, hw₂, shapeVps_trans (shapeVps_status v _) hs₂, ?_⟩
      rcases hst₂ with h₂ | h₂
      · exact h₂
      · exact h₂
    · by_cases hf : f₁ ≤ t
      · simp only [fireDue, if_pos hf]
        obtain ⟨w₁, hw₁, hs₁, hst₁⟩ := fireTimer_frame m u₁ uid v h
        obtain ⟨w₂, hw₂, hs₂, hst₂⟩ := ih (fireTimer m u₁) w₁ hmem₁ hw₁
        exact ⟨w₂, hw₂, shapeVps_trans hs₁ hs₂, hst₂⟩
      · simp only [fireDue, if_neg hf]
        exact ih m v hmem₁ h

theorem createLxc_counter_mono (m : VpsManager) (u : User) (sp : Specs) :
    m.vpsIdCounter ≤ (createLxc m u sp).2.vpsIdCounter := by
  unfold createLxc
  cases getUserVps m u.id
  · exact Nat.le_succ _
  · exact Nat.le_refl _

theorem performAction_counter (s : Sys) (uid a : String) :
    (performAction s uid a).2.mgr.vpsIdCounter = s.mgr.vpsIdCounter := by
  unfold performAction
  cases mapGet s.mgr.vpsDatabase uid
  · rfl
  · by_cases h₁ : a = "start" <;> by_cases h₂ : a = "shutdown" <;>
      by_cases h₃ : a = "reboot" <;> simp [h₁, h₂, h₃]

theorem runOp_counter_mono (s : Sys) (op : Op) :
    s.mgr.vpsIdCounter ≤ (runOp s op).mgr.vpsIdCounter := by
  cases op with
  | create u sp => exact createLxc_counter_mono s.mgr u sp
  | action uid a => exact (performAction_counter s uid a).ge
  | advance t =>
    simp only [runOp, advanceTo]
    exact (fireDue_counter s.timers s.mgr t).ge

theorem run_counter_mono (s : Sys) (ops : List Op) :
    s.mgr.vpsIdCounter ≤ (run s ops).mgr.vpsIdCounter := by
  induction ops generalizing s with
  | nil => exact Nat.le_refl _
  | cons op rest ih => exact Nat.le_trans (runOp_counter_mono s op) (ih (runOp s op))

end VpsBot

namespace VpsBot

theorem mapSet_status_frame (db : List (String × Vps)) (k uid : String) (v₀ v : Vps)
    (st : String) (hk : mapGet db k = some v₀) (h : mapGet db uid = some v) :
    ∃ w, mapGet (mapSet db k { v₀ with status := st }) uid = some w ∧ ShapeVps v w := by
  by_cases he : uid = k
  · subst he
    have hv : v₀ = v := by
      rw [h] at hk
      exact (Option.some_inj.mp hk).symm
    subst hv
    exact ⟨{ v₀ with status := st }, mapGet_mapSet_self _ _ _, shapeVps_status v₀ st⟩
  · refine ⟨v, ?_, shapeVps_refl v⟩
    rw [mapGet_mapSet_ne _ _ _ _ he]
    exact h

theorem performAction_frame (s : Sys) (uidA a uid : String) (v : Vps)
    (h : mapGet s.mgr.vpsDatabase uid = some v) :
    ∃ w, mapGet (performAction s uidA a).2.mgr.vpsDatabase uid = some w ∧
      ShapeVps v w := by
  unfold performAction
  cases hg : mapGet s.mgr.vpsDatabase uidA with
  | none => exact ⟨v, h, shapeVps_refl v⟩
  | some v₀ =>
    by_cases h₁ : a = "start"
    · simp only [if_pos h₁]
      exact mapSet_status_frame _ _ _ _ _ _ hg h
    · by_cases h₂ : a = "shutdown"
      · simp only [if_neg h₁, if_pos h₂]
        exact mapSet_status_frame _ _ _ _ _ _ hg h
      · by_cases h₃ : a = "reboot"
        · simp only [if_neg h₁, if_neg h₂, if_pos h₃]
          exact mapSet_status_frame _ _ _ _ _ _ hg h
        · simp only [if_neg h₁, if_neg h₂, if_neg h₃]
          exact ⟨v, h, shapeVps_refl v⟩

theorem createLxc_frame (m : VpsManager) (u : User) (sp : Specs) (uid : String)
    (v : Vps) (h : mapGet m.vpsDatabase uid = some v) :
    mapGet (createLxc m u sp).2.vpsDatabase uid = some v := by
  unfold createLxc
  cases hg : getUserVps m u.id with
  | some v₀ => exact h
  | none =>
    have hne : uid ≠ u.id := by
      intro he
      rw [getUserVps, ← he, h] at hg
      exact Option.noConfusion hg
    simp only []
    rw [mapGet_mapSet_ne _ _ _ _ hne]
    exact h

theorem runOp_frame (s : Sys) (op : Op) (uid : String) (v : Vps)
    (h : mapGet s.mgr.vpsDatabase uid = some v) :
    ∃ w, mapGet (runOp s op).mgr.vpsDatabase uid = some w ∧ ShapeVps v w := by
  cases op with
  | create u sp => exact ⟨v, createLxc_frame s.mgr u sp uid v h, shapeVps_refl v⟩
  | action uidA a => exact performAction_frame s uidA a uid v h
  | advance t =>
    obtain ⟨w, hw, hs, _⟩ := fireDue_frame s.timers s.mgr t uid v h
    exact ⟨w, hw, hs⟩

theorem run_frame (ops : List Op) :
    ∀ (s : Sys) (uid : String) (v : Vps), mapGet s.mgr.vpsDatabase uid = some v →
      ∃ w, mapGet (run s ops).mgr.vpsDatabase uid = some w ∧ ShapeVps v w := by
  induction ops with
  | nil => exact fun s uid v h => ⟨v, h, shapeVps_refl v⟩
  | cons op rest ih =>
    intro s uid v h
    obtain ⟨w₁, hw₁, hs₁⟩ := runOp_frame s op uid v h
    obtain ⟨w₂, hw₂, hs₂⟩ := ih (runOp s op) uid w₁ hw₁
    exact ⟨w₂, hw₂, shapeVps_trans hs₁ hs₂⟩

end VpsBot

namespace VpsBot

/-! ### Pointwise structure preservation of the database -/

theorem entryShape_refl (e : String × Vps) : EntryShape e e :=
  ⟨rfl, shapeVps_refl e.2⟩

theorem forall₂_entryShape_refl (db : List (String × Vps)) :
    List.Forall₂ EntryShape db db := by
  induction db with
  | nil => exact .nil
  | cons e rest ih => exact .cons (entryShape_refl e) ih

theorem forall₂_entryShape_trans {l₁ l₂ l₃ : List (String × Vps)}
    (h₁ : List.Forall₂ EntryShape l₁ l₂) (h₂ : List.Forall₂ EntryShape l₂ l₃) :
    List.Forall₂ EntryShape l₁ l₃ := by
  induction h₁ generalizing l₃ with
  | nil => cases h₂; exact .nil
  | cons ha ht ih =>
    cases h₂ with
    | cons hb hbt =>
      exact .cons ⟨hb.1.trans ha.1, shapeVps_trans ha.2 hb.2⟩ (ih hbt)

theorem forall₂_entryShape_mem_right {l₁ l₂ : List (String × Vps)}
    (h : List.Forall₂ EntryShape l₁ l₂) :
    ∀ e₁ ∈ l₂, ∃ e ∈ l₁, EntryShape e e₁ := by
  induction h with
  | nil => simp
  | cons ha ht ih =>
    intro e₁ he₁
    rcases List.mem_cons.mp he₁ with rfl | he₁
    · exact ⟨_, List.mem_cons_self _ _, ha⟩
    · obtain ⟨e, he, hs⟩ := ih e₁ he₁
      exact ⟨e, List.mem_cons_of_mem _ he, hs⟩

theorem forall₂_entryShape_pairwise {l₁ l₂ : List (String × Vps)}
    (h : List.Forall₂ EntryShape l₁ l₂)
    (hp : l₁.Pairwise (fun e₁ e₂ => e₁.2.id ≠ e₂.2.id)) :
    l₂.Pairwise (fun e₁ e₂ => e₁.2.id ≠ e₂.2.id) := by
  induction h with
  | nil => exact .nil
  | cons ha ht ih =>
    rcases List.pairwise_cons.mp hp with ⟨hhead, htail⟩
    refine List.pairwise_cons.mpr ⟨?_, ih htail⟩
    intro b₁ hb₁
    obtain ⟨b, hb, hsb⟩ := forall₂_entryShape_mem_right ht b₁ hb₁
    rw [ha.2.1, hsb.2.1]
    exact hhead b hb

theorem mapSet_forall₂ (db : List (String × Vps)) (k : String) (v₀ v : Vps)
    (hk : mapGet db k = some v₀) (hs : ShapeVps v₀ v) :
    List.Forall₂ EntryShape db (mapSet db k v) := by
  induction db with
  | nil => simp [mapGet] at hk
  | cons e rest ih =>
    obtain ⟨k₁, v₁⟩ := e
    by_cases h₁ : k₁ = k
    · subst h₁
      simp only [mapGet, if_true, eq_self_iff_true, Option.some_inj] at hk
      subst hk
      simp only [mapSet, if_true, eq_self_iff_true]
      exact .cons ⟨rfl, hs⟩ (forall₂_entryShape_refl rest)
    · simp only [mapGet, if_neg h₁] at hk
      simp only [mapSet, if_neg h₁]
      exact .cons (entryShape_refl _) (ih hk)

theorem fireTimer_forall₂ (m : VpsManager) (uid : String) :
    List.Forall₂ EntryShape m.vpsDatabase (fireTimer m uid).vpsDatabase := by
  unfold fireTimer
  cases hg : mapGet m.vpsDatabase uid with
  | none => exact forall₂_entryShape_refl _
  | some v => exact mapSet_forall₂ _ _ _ _ hg (shapeVps_status v "online")

theorem fireDue_forall₂ (tl : List (String × Nat)) (m : VpsManager) (t : Nat) :
    List.Forall₂ EntryShape m.vpsDatabase (fireDue m tl t).1.vpsDatabase := by
  induction tl generalizing m with
  | nil => exact forall₂_entryShape_refl _
  | cons e rest ih =>
    obtain ⟨u₁, f₁⟩ := e
    by_cases hf : f₁ ≤ t
    · simp only [fireDue, if_pos hf]
      exact forall₂_entryShape_trans (fireTimer_forall₂ m u₁) (ih (fireTimer m u₁))
    · simp only [fireDue, if_neg hf]
      exact ih m

theorem performAction_forall₂ (s : Sys) (uid a : String) :
    List.Forall₂ EntryShape s.mgr.vpsDatabase
      (performAction s uid a).2.mgr.vpsDatabase := by
  unfold performAction
  cases hg : mapGet s.mgr.vpsDatabase uid with
  | none => exact forall₂_entryShape_refl _
  | some v =>
    by_cases h₁ : a = "start"
    · simp only [if_pos h₁]
      exact mapSet_forall₂ _ _ _ _ hg (shapeVps_status v "online")
    · by_cases h₂ : a = "shutdown"
      · simp only [if_neg h₁, if_pos h₂]
        exact mapSet_forall₂ _ _ _ _ hg (shapeVps_status v "offline")
      · by_cases h₃ : a = "reboot"
        · simp only [if_neg h₁, if_neg h₂, if_pos h₃]
          exact mapSet_forall₂ _ _ _ _ hg (shapeVps_status v "rebooting")
        · simp only [if_neg h₁, if_neg h₂, if_neg h₃]
          exact forall₂_entryShape_refl _

/-! ### The reachability invariant -/

theorem recOk_mono {c₁ c₂ : Nat} (h : c₁ ≤ c₂) {e : String × Vps}
    (hr : RecOk c₁ e) : RecOk c₂ e := by
  obtain ⟨n, hn₁, hn₂, hid, htm⟩ := hr
  exact ⟨n, hn₁, Nat.lt_of_lt_of_le hn₂ h, hid, htm⟩

theorem recOk_of_entryShape {c : Nat} {e e₁ : String × Vps}
    (hs : EntryShape e e₁) (hr : RecOk c e) : RecOk c e₁ := by
  obtain ⟨n, hn₁, hn₂, hid, htm⟩ := hr
  refine ⟨n, hn₁, hn₂, ?_, ?_⟩
  · rw [hs.2.1]; exact hid
  · rw [hs.2.2.2.2, hs.2.1, hs.2.2.1]; exact htm

theorem inv_of_forall₂ {s s₁ : Sys}
    (hdb : List.Forall₂ EntryShape s.mgr.vpsDatabase s₁.mgr.vpsDatabase)
    (hc : s₁.mgr.vpsIdCounter = s.mgr.vpsIdCounter) (h : Inv s) : Inv s₁ := by
  obtain ⟨hrec, hpw, hcb⟩ := h
  refine ⟨?_, forall₂_entryShape_pairwise hdb hpw, hc ▸ hcb⟩
  intro e₁ he₁
  obtain ⟨e, he, hs⟩ := forall₂_entryShape_mem_right hdb e₁ he₁
  rw [hc]
  exact recOk_of_entryShape hs (hrec e he)

theorem inv_runOp {s : Sys} (op : Op) (h : Inv s) : Inv (runOp s op) := by
  cases op with
  | create u sp =>
    obtain ⟨hrec, hpw, hcb⟩ := h
    show Inv { s with mgr := (createLxc s.mgr u sp).2 }
    unfold createLxc
    cases hg : getUserVps s.mgr u.id with
    | some v => exact ⟨hrec, hpw, hcb⟩
    | none =>
      rw [getUserVps] at hg
      simp only []
      rw [mapSet_absent _ _ _ hg]
      constructor
      · intro e he
        rcases List.mem_append.mp he with he | he
        · exact recOk_mono (Nat.le_succ _) (hrec e he)
        · rcases List.mem_singleton.mp he with rfl
          exact ⟨s.mgr.vpsIdCounter, hcb, Nat.lt_succ_self _, rfl, rfl⟩
      constructor
      · rw [List.pairwise_append]
        refine ⟨hpw, List.pairwise_singleton _ _, ?_⟩
        intro e he e₁ he₁
        rcases List.mem_singleton.mp he₁ with rfl
        obtain ⟨n, hn₁, hn₂, hid, _⟩ := hrec e he
        intro hcontra
        rw [hid] at hcontra
        have := lxcId_inj hcontra
        omega
      · exact Nat.le_succ_of_le hcb
  | action uid a =>
    exact inv_of_forall₂ (performAction_forall₂ s uid a) (performAction_counter s uid a) h
  | advance t =>
    exact inv_of_forall₂ (fireDue_forall₂ s.timers s.mgr t)
      (fireDue_counter s.timers s.mgr t) h

theorem inv_run (ops : List Op) : ∀ s : Sys, Inv s → Inv (run s ops) := by
  induction ops with
  | nil => exact fun s h => h
  | cons op rest ih => exact fun s h => ih (runOp s op) (inv_runOp op h)

theorem inv_initSys : Inv initSys := by
  refine ⟨?_, ?_, ?_⟩
  · intro e he
    simp [initSys, newVpsManager] at he
  · simp [initSys, newVpsManager]
  · simp [initSys, newVpsManager]

end VpsBot

namespace VpsBot

/-! ### Equation lemmas for the operations -/

theorem performAction_notFound_eq (s : Sys) (uid a : String)
    (h : mapGet s.mgr.vpsDatabase uid = none) :
    performAction s uid a = (.failure "VPS not found.", s) := by
  unfold performAction
  rw [h]

theorem performAction_start_eq (s : Sys) (uid : String) (v : Vps)
    (h : mapGet s.mgr.vpsDatabase uid = some v) :
    performAction s uid "start" =
      (.success { v with status := "online" },
       { s with mgr := { s.mgr with
           vpsDatabase := mapSet s.mgr.vpsDatabase uid { v with status := "online" } } }) := by
  simp [performAction, h]

theorem performAction_shutdown_eq (s : Sys) (uid : String) (v : Vps)
    (h : mapGet s.mgr.vpsDatabase uid = some v) :
    performAction s uid "shutdown" =
      (.success { v with status := "offline" },
       { s with mgr := { s.mgr with
           vpsDatabase := mapSet s.mgr.vpsDatabase uid { v with status := "offline" } } }) := by
  simp [performAction, h]

theorem performAction_reboot_eq (s : Sys) (uid : String) (v : Vps)
    (h : mapGet s.mgr.vpsDatabase uid = some v) :
    performAction s uid "reboot" =
      (.success { v with status := "rebooting" },
       { s with
           mgr := { s.mgr with
             vpsDatabase := mapSet s.mgr.vpsDatabase uid { v with status := "rebooting" } }
           timers := s.timers ++ [(uid, s.now + rebootDelay)] }) := by
  simp [performAction, h]

theorem performAction_other_eq (s : Sys) (uid a : String) (v : Vps)
    (h : mapGet s.mgr.vpsDatabase uid = some v) (h₁ : a ≠ "start")
    (h₂ : a ≠ "shutdown") (h₃ : a ≠ "reboot") :
    performAction s uid a = (.success v, s) := by
  simp only [performAction, h]
  rw [if_neg h₁, if_neg h₂, if_neg h₃]

theorem createLxc_success_inv (m : VpsManager) (u : User) (sp : Specs) (v : Vps)
    (m₁ : VpsManager) (h : createLxc m u sp = (.success v, m₁)) :
    getUserVps m u.id = none ∧
    v = { id := "LXC-" ++ Nat.repr m.vpsIdCounter, owner := u, specs := sp,
          status := "offline",
          tmateSession := "ssh " ++ u.username ++ "-" ++
            ("LXC-" ++ Nat.repr m.vpsIdCounter) ++ "@tmate.kexson.host" } ∧
    m₁ = { vpsDatabase := mapSet m.vpsDatabase u.id v,
           vpsIdCounter := m.vpsIdCounter + 1 } := by
  unfold createLxc at h
  cases hg : getUserVps m u.id with
  | some v₀ =>
    rw [hg] at h
    exact absurd h (by simp)
  | none =>
    rw [hg] at h
    rw [Prod.mk.injEq] at h
    obtain ⟨h₁, h₂⟩ := h
    injection h₁ with h₁
    refine ⟨rfl, h₁.symm, ?_⟩
    rw [← h₂, h₁]

theorem createLxc_absent_counter (m : VpsManager) (u : User) (sp : Specs)
    (h : getUserVps m u.id = none) :
    (createLxc m u sp).2.vpsIdCounter = m.vpsIdCounter + 1 := by
  unfold createLxc
  rw [h]

/-! ### The claims -/

/-- C1: if an owner already has a record, `createLxc` fails with the
already-exists failure result and returns the registry completely unchanged —
the existing record is never overwritten. -/
theorem createLxc_existing_fails (m : VpsManager) (u : User) (sp : Specs) (v : Vps)
    (h : getUserVps m u.id = some v) :
    createLxc m u sp = (.failure "User already has a VPS.", m) := by
  unfold createLxc
  rw [h]

/-- Witness for C1, on the concrete one-record manager. -/
theorem createLxc_existing_fails_witness :
    createLxc mgrAlice uAlice spSmall = (.failure "User already has a VPS.", mgrAlice) :=
  createLxc_existing_fails mgrAlice uAlice spSmall vpsAlice (by decide)

/-- C5: a lifecycle action for an owner with no record fails with the
not-found failure result and the whole system state (registry, clock and
timers) is returned unchanged. -/
theorem performAction_missing_notFound (s : Sys) (uid a : String)
    (h : mapGet s.mgr.vpsDatabase uid = none) :
    performAction s uid a = (.failure "VPS not found.", s) :=
  performAction_notFound_eq s uid a h

/-- Witness for C5: any action on an empty registry fails without mutation. -/
theorem performAction_missing_notFound_witness :
    performAction initSys "9" "start" = (.failure "VPS not found.", initSys) :=
  performAction_missing_notFound initSys "9" "start" (by decide)

/-- C10: an action name other than `start`, `shutdown` and `reboot` on an
existing record returns a success result carrying the record and leaves the
system state untouched. -/
theorem performAction_unknown_noop (s : Sys) (uid a : String) (v : Vps)
    (h : mapGet s.mgr.vpsDatabase uid = some v) (h₁ : a ≠ "start")
    (h₂ : a ≠ "shutdown") (h₃ : a ≠ "reboot") :
    performAction s uid a = (.success v, s) :=
  performAction_other_eq s uid a v h h₁ h₂ h₃

/-- Witness for C10, with the unrecognized action string `destroy`. -/
theorem performAction_unknown_noop_witness :
    performAction sysAlice "1" "destroy" = (.success vpsAlice, sysAlice) :=
  performAction_unknown_noop sysAlice "1" "destroy" vpsAlice (by decide)
    (by decide) (by decide) (by decide)

end VpsBot

namespace VpsBot

theorem vps_status_status (v : Vps) (s₁ s₂ : String) :
    ({ { v with status := s₁ } with status := s₂ } : Vps) = { v with status := s₂ } := rfl

/-- C3: on an existing record in any status, `start` sets the status to
`online` and `shutdown` sets it to `offline`, unconditionally; each action is
idempotent on the system state; and the sequence `start`, `shutdown`, `start`
ends with the record `online`. -/
theorem start_shutdown_unconditional_idempotent (s : Sys) (uid : String) (v : Vps)
    (h : mapGet s.mgr.vpsDatabase uid = some v) :
    ((performAction s uid "start").1 = .success { v with status := "online" } ∧
      mapGet (performAction s uid "start").2.mgr.vpsDatabase uid =
        some { v with status := "online" }) ∧
    ((performAction s uid "shutdown").1 = .success { v with status := "offline" } ∧
      mapGet (performAction s uid "shutdown").2.mgr.vpsDatabase uid =
        some { v with status := "offline" }) ∧
    (performAction (performAction s uid "start").2 uid "start").2 =
      (performAction s uid "start").2 ∧
    (performAction (performAction s uid "shutdown").2 uid "shutdown").2 =
      (performAction s uid "shutdown").2 ∧
    mapGet (performAction (performAction (performAction s uid "start").2 uid
        "shutdown").2 uid "start").2.mgr.vpsDatabase uid =
      some { v with status := "online" } := by
  have hst := performAction_start_eq s uid v h
  have hsd := performAction_shutdown_eq s uid v h
  have h₂ : mapGet (performAction s uid "start").2.mgr.vpsDatabase uid =
      some { v with status := "online" } := by
    rw [hst]; exact mapGet_mapSet_self _ _ _
  have h₂d : mapGet (performAction s uid "shutdown").2.mgr.vpsDatabase uid =
      some { v with status := "offline" } := by
    rw [hsd]; exact mapGet_mapSet_self _ _ _
  refine ⟨⟨?_, h₂⟩, ⟨?_, h₂d⟩, ?_, ?_, ?_⟩
  · rw [hst]
  · rw [hsd]
  · rw [performAction_start_eq _ uid _ h₂, vps_status_status,
      mapSet_present_self _ _ _ h₂]
  · rw [performAction_shutdown_eq _ uid _ h₂d, vps_status_status,
      mapSet_present_self _ _ _ h₂d]
  · have h₃ : mapGet (performAction (performAction s uid "start").2 uid
        "shutdown").2.mgr.vpsDatabase uid = some { v with status := "offline" } := by
      rw [performAction_shutdown_eq _ uid _ h₂, vps_status_status]
      exact mapGet_mapSet_self _ _ _
    rw [performAction_start_eq _ uid _ h₃, vps_status_status]
    exact mapGet_mapSet_self _ _ _

/-- Witness for C3: the full sequence on the concrete one-record system. -/
theorem start_shutdown_unconditional_idempotent_witness :
    mapGet (performAction (performAction (performAction sysAlice "1" "start").2 "1"
        "shutdown").2 "1" "start").2.mgr.vpsDatabase "1" =
      some { vpsAlice with status := "online" } :=
  (start_shutdown_unconditional_idempotent sysAlice "1" vpsAlice (by decide)).2.2.2.2

/-- C4: on an existing record, `reboot` synchronously sets the status to
`rebooting` (both in the returned result and in the registry) and schedules a
timer so that once the fixed delay of `rebootDelay = 5` time units has
elapsed, with no further actions on that record, the status is `online`. -/
theorem reboot_sets_rebooting_then_online (s : Sys) (uid : String) (v : Vps)
    (h : mapGet s.mgr.vpsDatabase uid = some v) :
    rebootDelay = 5 ∧
    (performAction s uid "reboot").1 = .success { v with status := "rebooting" } ∧
    mapGet (performAction s uid "reboot").2.mgr.vpsDatabase uid =
      some { v with status := "rebooting" } ∧
    ∀ t, s.now + rebootDelay ≤ t →
      ∃ w, mapGet (advanceTo (performAction s uid "reboot").2 t).mgr.vpsDatabase uid =
          some w ∧ w.status = "online" := by
  have hrb := performAction_reboot_eq s uid v h
  have h₂ : mapGet (performAction s uid "reboot").2.mgr.vpsDatabase uid =
      some { v with status := "rebooting" } := by
    rw [hrb]; exact mapGet_mapSet_self _ _ _
  refine ⟨rfl, ?_, h₂, ?_⟩
  · rw [hrb]
  · intro t ht
    have hmem : (uid, s.now + rebootDelay) ∈ (performAction s uid "reboot").2.timers := by
      rw [hrb]
      exact List.mem_append_right _ (List.mem_cons_self _ _)
    obtain ⟨w, hw, hs₁, hon⟩ :=
      fireDue_fires (performAction s uid "reboot").2.timers t uid
        (s.now + rebootDelay) ht (performAction s uid "reboot").2.mgr
        { v with status := "rebooting" } hmem h₂
    exact ⟨w, hw, hon⟩

/-- Witness for C4: reboot at time 0, then advance the clock to time 5. -/
theorem reboot_sets_rebooting_then_online_witness :
    ∃ w, mapGet (advanceTo (performAction sysAlice "1" "reboot").2 5).mgr.vpsDatabase
        "1" = some w ∧ w.status = "online" :=
  (reboot_sets_rebooting_then_online sysAlice "1" vpsAlice (by decide)).2.2.2 5
    (by decide)

end VpsBot

namespace VpsBot

/-- C2: a successful create for an owner with no record appends exactly one
new record keyed by that owner id, with status `offline` and id equal to the
fixed prefix `LXC-` followed by the current counter value, and increments the
counter; any later successful create, after any sequence of operations,
receives a different id. -/
theorem createLxc_fresh_allocates (m : VpsManager) (u : User) (sp : Specs)
    (h : getUserVps m u.id = none) :
    ∃ v : Vps,
      createLxc m u sp =
        (.success v,
         { vpsDatabase := m.vpsDatabase ++ [(u.id, v)],
           vpsIdCounter := m.vpsIdCounter + 1 }) ∧
      v.status = "offline" ∧
      v.id = "LXC-" ++ Nat.repr m.vpsIdCounter ∧
      v.owner = u ∧ v.specs = sp ∧
      ∀ (now : Nat) (timers : List (String × Nat)) (ops : List Op) (u₂ : User)
        (sp₂ : Specs) (v₂ : Vps) (m₂ : VpsManager),
        createLxc (run ⟨(createLxc m u sp).2, now, timers⟩ ops).mgr u₂ sp₂ =
          (.success v₂, m₂) →
        v₂.id ≠ v.id := by
  refine ⟨{ id := "LXC-" ++ Nat.repr m.vpsIdCounter, owner := u, specs := sp,
            status := "offline",
            tmateSession := "ssh " ++ u.username ++ "-" ++
              ("LXC-" ++ Nat.repr m.vpsIdCounter) ++ "@tmate.kexson.host" },
          ?_, rfl, rfl, rfl, rfl, ?_⟩
  · simp only [createLxc, h]
    rw [mapSet_absent _ _ _ h]
  · intro now timers ops u₂ sp₂ v₂ m₂ hc₂ heq
    obtain ⟨hg₂, hv₂, hm₂⟩ := createLxc_success_inv _ _ _ _ _ hc₂
    have h₀ : (createLxc m u sp).2.vpsIdCounter ≤
        (run ⟨(createLxc m u sp).2, now, timers⟩ ops).mgr.vpsIdCounter :=
      run_counter_mono ⟨(createLxc m u sp).2, now, timers⟩ ops
    rw [createLxc_absent_counter m u sp h] at h₀
    have hid : "LXC-" ++
        Nat.repr (run ⟨(createLxc m u sp).2, now, timers⟩ ops).mgr.vpsIdCounter =
        "LXC-" ++ Nat.repr m.vpsIdCounter := by
      rw [hv₂] at heq
      exact heq
    have := lxcId_inj hid
    omega

/-- Witness for C2, on a fresh manager. -/
theorem createLxc_fresh_allocates_witness :
    ∃ v : Vps,
      createLxc newVpsManager uAlice spSmall =
        (.success v,
         { vpsDatabase := newVpsManager.vpsDatabase ++ [(uAlice.id, v)],
           vpsIdCounter := newVpsManager.vpsIdCounter + 1 }) ∧
      v.status = "offline" ∧
      v.id = "LXC-" ++ Nat.repr newVpsManager.vpsIdCounter ∧
      v.owner = uAlice ∧ v.specs = spSmall ∧
      ∀ (now : Nat) (timers : List (String × Nat)) (ops : List Op) (u₂ : User)
        (sp₂ : Specs) (v₂ : Vps) (m₂ : VpsManager),
        createLxc (run ⟨(createLxc newVpsManager uAlice spSmall).2, now, timers⟩
            ops).mgr u₂ sp₂ = (.success v₂, m₂) →
        v₂.id ≠ v.id :=
  createLxc_fresh_allocates newVpsManager uAlice spSmall (by decide)

/-- C6 counterexample: two creations with the same owner id and the same
record id but different usernames receive different credentials, so the
credential is not a function of the pair (ownerId, id). -/
theorem tmate_not_function_of_ownerId :
    (createLxc newVpsManager uAlice spSmall).1 = .success vpsAlice ∧
    (createLxc newVpsManager uBob spSmall).1 = .success vpsBob ∧
    uAlice.id = uBob.id ∧ vpsAlice.id = vpsBob.id ∧
    vpsAlice.tmateSession ≠ vpsBob.tmateSession := by decide

/-- C6 amended: the credential is a deterministic function of the owner
username and the record id, and in every reachable registry state two
distinct records never carry the same credential. -/
theorem tmate_deterministic_and_unique :
    (∀ (m : VpsManager) (u : User) (sp : Specs) (v : Vps) (m₁ : VpsManager),
      createLxc m u sp = (.success v, m₁) →
      v.tmateSession = mkTmate u.username v.id) ∧
    (∀ ops : List Op,
      (run initSys ops).mgr.vpsDatabase.Pairwise
        (fun e₁ e₂ => e₁.2.tmateSession ≠ e₂.2.tmateSession)) := by
  constructor
  · intro m u sp v m₁ hc
    obtain ⟨_, hv, _⟩ := createLxc_success_inv m u sp v m₁ hc
    rw [hv]
    rfl
  · intro ops
    obtain ⟨hrec, hpw, hcb⟩ := inv_run ops initSys inv_initSys
    refine List.Pairwise.imp_of_mem ?_ hpw
    intro e₁ e₂ he₁ he₂ hne heq
    obtain ⟨n₁, hb₁, hl₁, hid₁, htm₁⟩ := hrec e₁ he₁
    obtain ⟨n₂, hb₂, hl₂, hid₂, htm₂⟩ := hrec e₂ he₂
    rw [htm₁, htm₂, hid₁, hid₂] at heq
    have hn := mkTmate_inj heq
    apply hne
    rw [hid₁, hid₂, hn]

/-- Witness for C6 (amended), on the concrete created record. -/
theorem tmate_deterministic_and_unique_witness :
    vpsAlice.tmateSession = mkTmate uAlice.username vpsAlice.id :=
  tmate_deterministic_and_unique.1 newVpsManager uAlice spSmall vpsAlice mgrAlice
    (by decide)

/-- C7 counterexample: `createLxc` performs no validation, so a record with a
nonpositive RAM value is stored as given, refuting the claim that every
stored record has strictly positive spec fields. -/
theorem specs_not_validated_positive :
    (createLxc newVpsManager uCarol spBad).1 =
      .success { id := "LXC-1000", owner := uCarol, specs := spBad,
                 status := "offline",
                 tmateSession := "ssh carol-LXC-1000@tmate.kexson.host" } ∧
    mapGet (createLxc newVpsManager uCarol spBad).2.vpsDatabase "2" =
      some { id := "LXC-1000", owner := uCarol, specs := spBad,
             status := "offline",
             tmateSession := "ssh carol-LXC-1000@tmate.kexson.host" } ∧
    ¬(0 < spBad.ram) := by decide

/-- C7 amended: every record stores exactly the specs passed at creation
(no positivity validation), and no operation ever mutates a stored record's
specs (nor its id, owner or credential). -/
theorem specs_stored_verbatim_immutable :
    (∀ (m : VpsManager) (u : User) (sp : Specs) (v : Vps) (m₁ : VpsManager),
      createLxc m u sp = (.success v, m₁) → v.specs = sp) ∧
    (∀ (ops : List Op) (s : Sys) (uid : String) (v : Vps),
      mapGet s.mgr.vpsDatabase uid = some v →
      ∃ w, mapGet (run s ops).mgr.vpsDatabase uid = some w ∧ w.specs = v.specs ∧
        w.id = v.id ∧ w.owner = v.owner ∧ w.tmateSession = v.tmateSession) := by
  constructor
  · intro m u sp v m₁ hc
    obtain ⟨_, hv, _⟩ := createLxc_success_inv m u sp v m₁ hc
    rw [hv]
  · intro ops s uid v hv
    obtain ⟨w, hw, hs⟩ := run_frame ops s uid v hv
    exact ⟨w, hw, hs.2.2.1, hs.1, hs.2.1, hs.2.2.2⟩

/-- Witness for C7 (amended): the created record echoes the given specs. -/
theorem specs_stored_verbatim_immutable_witness : vpsAlice.specs = spSmall :=
  specs_stored_verbatim_immutable.1 newVpsManager uAlice spSmall vpsAlice mgrAlice
    (by decide)

/-- C8: a `deploy` slash command from any actor other than the configured
admin identity is answered with the not-admin denial and neither `createLxc`
nor any other operation runs — the registry is returned unchanged. -/
theorem deploy_nonAdmin_denied (m : VpsManager) (adminId : String) (i : Interaction)
    (hc : i.isChatInputCommand = true) (hn : i.commandName = "deploy")
    (ha : i.user.id ≠ adminId) :
    handleInteraction m adminId i = (m, [Reply.notAdmin]) := by
  simp [handleInteraction, hc, hn, ha]

/-- Witness for C8: the non-admin `uBob` attempts a deploy. -/
theorem deploy_nonAdmin_denied_witness :
    handleInteraction newVpsManager "999" deployByBob =
      (newVpsManager, [Reply.notAdmin]) :=
  deploy_nonAdmin_denied newVpsManager "999" deployByBob (by decide) (by decide)
    (by decide)

/-- C9 counterexample: an owner's DM whose text is not a recognized command
but does not start with `!` is ignored silently — the handler sends no reply
at all rather than the unknown-command reply. -/
theorem unrecognized_text_silent :
    mapGet sysAlice.mgr.vpsDatabase msgHello.authorId = some vpsAlice ∧
    handleMessage sysAlice msgHello = (sysAlice, []) ∧
    ([] : List Reply) ≠ [Reply.dmUnknown] := by decide

/-- C9 amended: for an owner's DM, a first token that does not start with `!`
is ignored with no reply and no mutation; a first token that starts with `!`
but, lowercased, is none of the six recognized commands draws the generic
unknown-command reply and no mutation. -/
theorem dm_unknown_command_reply (s : Sys) (msg : Message) (v : Vps)
    (hb : msg.authorBot = false) (hd : msg.channelIsDM = true)
    (hv : mapGet s.mgr.vpsDatabase msg.authorId = some v) :
    (strStartsWith (toLowerStr (firstToken msg.content)) "!" = false →
      handleMessage s msg = (s, [])) ∧
    (strStartsWith (toLowerStr (firstToken msg.content)) "!" = true →
      toLowerStr (firstToken msg.content) ∉
        (["!help", "!status", "!reboot", "!shutdown", "!start", "!ssh"] :
          List String) →
      handleMessage s msg = (s, [Reply.dmUnknown])) := by
  constructor
  · intro hns
    simp [handleMessage, hb, hd, hv, hns]
  · intro hss hnot
    simp only [List.mem_cons, List.not_mem_nil, or_false, not_or] at hnot
    obtain ⟨n₁, n₂, n₃, n₄, n₅, n₆⟩ := hnot
    simp [handleMessage, hb, hd, hv, hss, n₁, n₂, n₃, n₄, n₅, n₆]

/-- Witness for C9 (amended): `!frobnicate now` draws the unknown reply. -/
theorem dm_unknown_command_reply_witness :
    handleMessage sysAlice msgWeird = (sysAlice, [Reply.dmUnknown]) :=
  (dm_unknown_command_reply sysAlice msgWeird vpsAlice (by decide) (by decide)
    (by decide)).2 (by decide) (by decide)

end VpsBot
